import Mathlib

/-!
Verification of the flashmob/mbox streaming mboxrd codec.

The Go sources are shallowly embedded: bytes are `Nat` (values 0..255),
byte streams are `List Nat`, the push sink and pull source are explicit
lists, and the two scanner state machines (`encoder.Write` / `decoder.Read`)
are translated case by case from the source.  The decoder embedded here is
the most complete reader variant in the repository (the one with
multi-record support whose behavior the committed reader tests assert);
the encoder is the single writer implementation.

Date parsing/formatting (Go's `time.Parse` / `time.Format` with the fixed
`time.ANSIC` layout) is an external standard-library collaborator, modelled
from the spec's fixed layout `"Www Mmm _d HH:MM:SS yyyy"` for times at or
after the Unix epoch, interpreted in UTC.
-/

namespace Mbox

/-- Byte list of an ASCII string literal. -/
def bytesOf (s : String) : List Nat := s.data.map (fun c => c.toNat)

/-- `header = "From "`, the 5-byte magic marker (source: `const header`). -/
def header : List Nat := bytesOf "From "

/-- `headerEscaped = ">From "` (source: `const headerEscaped`). -/
def headerEscaped : List Nat := bytesOf ">From "

/-- The stuffing byte `'>'` (source: `const stuffing = ">"` / `const escape`). -/
def escape : Nat := 62

/-- The line terminator `'\n'` (source: `const newLine`). -/
def newLine : Nat := 10

/-- `spSize = 32`, the bounded stuffing flush block size. -/
def spSize : Nat := 32

/-! ### The fixed ANSIC date layout (external `time` collaborator)

Modelled from the spec: the single fixed, locale-independent layout
`Www Mmm _d HH:MM:SS yyyy` (day space-padded when single digit, two-digit
zero-padded time fields, 4-digit year), interpreted as UTC, restricted to
times at/after 1970-01-01.  Go's `time.Parse`/`Format` are standard-library
code outside this repository. -/

def weekdayNames : List (List Nat) :=
  [bytesOf "Sun", bytesOf "Mon", bytesOf "Tue", bytesOf "Wed",
   bytesOf "Thu", bytesOf "Fri", bytesOf "Sat"]

def monthNames : List (List Nat) :=
  [bytesOf "Jan", bytesOf "Feb", bytesOf "Mar", bytesOf "Apr",
   bytesOf "May", bytesOf "Jun", bytesOf "Jul", bytesOf "Aug",
   bytesOf "Sep", bytesOf "Oct", bytesOf "Nov", bytesOf "Dec"]

def isDigit (c : Nat) : Bool := 48 ≤ c && c ≤ 57

/-- Parse one or two leading decimal digits (Go `getnum` with `fixed=false`). -/
def parseNum12 : List Nat → Option (Nat × List Nat)
  | [] => none
  | [c] => if isDigit c then some (c - 48, []) else none
  | c1 :: c2 :: rest =>
    if isDigit c1 then
      if isDigit c2 then some ((c1 - 48) * 10 + (c2 - 48), rest)
      else some (c1 - 48, c2 :: rest)
    else none

def isLeap (y : Nat) : Bool := y % 4 == 0 && (y % 100 != 0 || y % 400 == 0)

def daysInMonth (y m : Nat) : Nat :=
  if m = 2 then (if isLeap y then 29 else 28)
  else if m = 4 ∨ m = 6 ∨ m = 9 ∨ m = 11 then 30
  else 31

/-- Days since 1970-01-01 for a civil date (valid for y ≥ 1970). -/
def daysFromCivil (y m d : Nat) : Nat :=
  let y1 := if m ≤ 2 then y - 1 else y
  let era := y1 / 400
  let yoe := y1 % 400
  let mp := if m > 2 then m - 3 else m + 9
  let doy := (153 * mp + 2) / 5 + d - 1
  let doe := yoe * 365 + yoe / 4 - yoe / 100 + doy
  era * 146097 + doe - 719468

/-- Civil date (y, m, d) from days since 1970-01-01. -/
def civilFromDays (z : Nat) : Nat × Nat × Nat :=
  let z1 := z + 719468
  let era := z1 / 146097
  let doe := z1 % 146097
  let yoe := (doe - doe / 1460 + doe / 36524 - doe / 146096) / 365
  let y := yoe + era * 400
  let doy := doe - (365 * yoe + yoe / 4 - yoe / 100)
  let mp := (5 * doy + 2) / 153
  let d := doy - (153 * mp + 2) / 5 + 1
  let m := if mp < 10 then mp + 3 else mp - 9
  (if m ≤ 2 then y + 1 else y, m, d)

def monthIndex (s : List Nat) : Option Nat :=
  match monthNames.findIdx? (fun nm => nm == s) with
  | some i => some (i + 1)
  | none => none

/-- Parse a date text in the fixed ANSIC layout into Unix epoch seconds (UTC).
Modelled from the spec's fixed layout; mirrors Go `time.Parse(time.ANSIC, s)`
for dates from 1970 on: unknown weekday/month names, malformed separators,
out-of-range fields or trailing bytes all fail. -/
def ansicParse (s : List Nat) : Option Nat :=
  let wd := s.take 3
  if weekdayNames.contains wd then
    let s1 := s.drop 3
    if s1.take 1 = [32] then
      match monthIndex ((s1.drop 1).take 3) with
      | none => none
      | some m =>
        let s2 := (s1.drop 1).drop 3
        if s2.take 1 = [32] then
          let s3 := s2.drop 1
          let s4 := if s3.take 1 = [32] then s3.drop 1 else s3
          match parseNum12 s4 with
          | none => none
          | some (day, s5) =>
            if s5.take 1 = [32] then
              match parseNum12 (s5.drop 1) with
              | none => none
              | some (hh, s6) =>
                if s6.take 1 = [58] then
                  match parseNum12 (s6.drop 1) with
                  | none => none
                  | some (mm, s7) =>
                    if s7.take 1 = [58] then
                      match parseNum12 (s7.drop 1) with
                      | none => none
                      | some (ss, s8) =>
                        if s8.take 1 = [32] then
                          let ys := s8.drop 1
                          if ys.length = 4 ∧ ys.all (fun c => isDigit c) then
                            let y := ys.foldl (fun a c => a * 10 + (c - 48)) 0
                            if hh < 24 ∧ mm < 60 ∧ ss < 60 ∧ 1 ≤ day ∧
                               day ≤ daysInMonth y m ∧ 1970 ≤ y then
                              some (daysFromCivil y m day * 86400 +
                                    hh * 3600 + mm * 60 + ss)
                            else none
                          else none
                        else none
                    else none
                else none
            else none
        else none
    else none
  else none

def twoDigits (x : Nat) : List Nat := [48 + x / 10 % 10, 48 + x % 10]

def fourDigits (x : Nat) : List Nat :=
  [48 + x / 1000 % 10, 48 + x / 100 % 10, 48 + x / 10 % 10, 48 + x % 10]

def dayChars (d : Nat) : List Nat := if d < 10 then [32, 48 + d] else twoDigits d

/-- Format Unix epoch seconds (UTC) in the fixed ANSIC layout.
Modelled from the spec; mirrors Go `t.UTC().Format(time.ANSIC)`. -/
def ansicFormat (t : Nat) : List Nat :=
  let days := t / 86400
  let rem := t % 86400
  let c := civilFromDays days
  let y := c.1
  let m := c.2.1
  let d := c.2.2
  let wd := (days + 4) % 7
  weekdayNames.getD wd [] ++ [32] ++ monthNames.getD (m - 1) [] ++ [32] ++
    dayChars d ++ [32] ++ twoDigits (rem / 3600) ++ [58] ++
    twoDigits (rem % 3600 / 60) ++ [58] ++ twoDigits (rem % 60) ++ [32] ++
    fourDigits y

/-! ### Encoder (source: the writer file, `type encoder` / `(*encoder).Write`)

The push sink (`w.w io.Writer`) is modelled as the list of bytes the
encoder writes during a call, returned alongside the updated encoder.
In this model the sink accepts every byte and never errors, so the Go
error results (which can only originate in the sink) are always nil and
are not represented. -/

/-- The encoder scanner states, in the source's `const` order. -/
inductive writeState
  | writeStateHeader
  | writeStateStartLine
  | writeStateCopy
  | writeStateMatchFrom
  | writeStateMatchStuffing
deriving DecidableEq

/-- Encoder instance state (source: `type encoder struct`).  `fromAddr`
models the Go field `from` (a Lean keyword).  The external sink is not a
field: written bytes are returned by each operation. -/
structure encoder where
  state : writeState := .writeStateHeader
  n : Nat := 0
  fromAddr : List Nat := []
  date : List Nat := []
  stuffingCount : Nat := 0
  matchCount : Nat := 0
  sb : List Nat := []
deriving DecidableEq

/-- `NewWriter`: a fresh encoder bound to an (empty) sink. -/
def NewWriter : encoder := {}

/-- `(*encoder).Open`: record the envelope and build the pending header
line `"From " + from + " " + date + "\n"` in the string builder. -/
def encOpen (w : encoder) (fromv : List Nat) (t : Nat) : encoder :=
  { w with fromAddr := fromv, date := ansicFormat t,
           sb := w.sb ++ header ++ fromv ++ [32] ++ ansicFormat t ++ [newLine] }

/-- One fuel unit per iteration of the bounded stuffing flush loop; each
iteration flushes at least one byte, so fuel equal to the run length is
always sufficient. -/
def flushStuffingF : Nat → Nat → List Nat
  | 0, _ => []
  | fuel + 1, c =>
    if c = 0 then []
    else
      let toCopy := min c spSize
      List.replicate toCopy escape ++ flushStuffingF fuel (c - toCopy)

/-- The bounded stuffing flush: write the counted `'>'` run to the sink in
blocks of at most `spSize` bytes from the pre-filled stuffing pool
(source: the `for w.stuffingCount > 0` loops in `Write` and `Close`). -/
def flushStuffing (c : Nat) : List Nat := flushStuffingF c c

/-- The body of `(*encoder).Write`'s `for w.pos < len(p)` loop, one fuel
unit per loop iteration.  Returns the updated encoder and the bytes pushed
to the sink.  `rem` is `p[w.pos:]`. -/
def encLoop : Nat → List Nat → encoder → encoder × List Nat
  | 0, _, w => (w, [])
  | fuel + 1, rem, w =>
    match rem with
    | [] => (w, [])
    | b :: rest =>
      match w.state with
      | .writeStateHeader =>
        -- flush the prebuilt header line, not consuming input and not
        -- counting toward w.n
        let r := encLoop fuel rem { w with state := .writeStateStartLine }
        (r.1, w.sb ++ r.2)
      | .writeStateStartLine =>
        if b = escape then
          encLoop fuel rest
            { w with stuffingCount := 1, n := w.n + 1,
                     state := .writeStateMatchStuffing }
        else if b = header.getD 0 0 then
          encLoop fuel rest
            { w with matchCount := 1, n := w.n + 1, state := .writeStateMatchFrom }
        else
          encLoop fuel rem { w with state := .writeStateCopy }
      | .writeStateCopy =>
        -- copy until the end of the line, or end of the data
        match rem.findIdx? (fun c => c = newLine) with
        | some j =>
          let chunk := rem.take (j + 1)
          let r := encLoop fuel (rem.drop (j + 1))
            { w with n := w.n + (j + 1), state := .writeStateStartLine }
          (r.1, chunk ++ r.2)
        | none => ({ w with n := w.n + rem.length }, rem)
      | .writeStateMatchStuffing =>
        if b = escape then
          -- keep counting: w.pos++ without w.n++
          encLoop fuel rest { w with stuffingCount := w.stuffingCount + 1 }
        else
          -- write out the stuffing (adds the whole run to w.n)
          let flushed := flushStuffing w.stuffingCount
          let w1 := { w with n := w.n + w.stuffingCount, stuffingCount := 0 }
          if b = newLine then
            let r := encLoop fuel rem { w1 with state := .writeStateStartLine }
            (r.1, flushed ++ r.2)
          else if b = header.getD 0 0 then
            -- w.pos++ without w.n++
            let r := encLoop fuel rest
              { w1 with matchCount := 1, state := .writeStateMatchFrom }
            (r.1, flushed ++ r.2)
          else
            let r := encLoop fuel rem { w1 with state := .writeStateCopy }
            (r.1, flushed ++ r.2)
      | .writeStateMatchFrom =>
        if w.matchCount = header.length then
          -- full match: emit the escaped form ">From "
          let r := encLoop fuel rem { w with matchCount := 0, state := .writeStateCopy }
          (r.1, headerEscaped ++ r.2)
        else if b = header.getD w.matchCount 0 then
          encLoop fuel rest { w with matchCount := w.matchCount + 1, n := w.n + 1 }
        else
          -- not matched: write the partial match plus the mismatching byte
          let r := encLoop fuel rest
            { w with matchCount := 0, n := w.n + 1, state := .writeStateCopy }
          (r.1, header.take w.matchCount ++ [b] ++ r.2)

/-- `(*encoder).Write`: returns the updated encoder and the bytes written
to the sink; the Go return count is the `n` field of the result.  Four
fuel units per input byte strictly bound the loop's iteration count. -/
def encWrite (w0 : encoder) (p : List Nat) : encoder × List Nat :=
  encLoop (4 * p.length + 4) p { w0 with n := 0 }

/-- `(*encoder).Close`: resolve a pending full marker match or a pending
stuffing run, always append the trailing line terminator, and reset the
scanner state for a subsequent Open. -/
def encClose (w : encoder) : encoder × List Nat :=
  let out1 := if w.matchCount = 5 then headerEscaped
              else if w.stuffingCount > 0 then flushStuffing w.stuffingCount
              else []
  let n1 := if w.matchCount = 5 then w.n
            else if w.stuffingCount > 0 then w.n + w.stuffingCount
            else w.n
  ({ w with state := .writeStateHeader, n := n1,
            matchCount := 0, stuffingCount := 0, sb := [] },
   out1 ++ [newLine])

/-! ### Decoder (source: the full reader variant, `type decoder` /
`(*decoder).Read`)

The pull source (`r.r io.Reader`) is modelled as the list of its remaining
bytes, with `bytes.Reader` semantics: a read of an empty source signals
end-of-data, otherwise it fills up to the internal buffer size and reports
no error.  The destination buffer `p` of a `Read` call is modelled by its
length `plen` and the list `placed` of bytes stored at successive indices
`p[0], p[1], ...` during the call (the loop variable `i` is
`placed.length`); the caller receives `placed.take count` where `count` is
the returned byte count, which the source does not always keep equal to
the number of placed bytes. -/

/-- Decoder error kinds plus the distinguished end-of-data signal:
`InvalidFormat`, `InvalidHeader` and Go's `io.EOF`. -/
inductive rerror
  | ioEOF
  | invalidFormat
  | invalidHeader
deriving DecidableEq

/-- The decoder scanner states, in the source's `const` order. -/
inductive readState
  | readStateHeaderMagic
  | readStateHeaderValues
  | readStateStartLine
  | readStatePutEol
  | readStateCopy
  | readStateMatchFrom
  | readStateOutputFrom
  | readStateHeaderMagicEOF
  | readStateEnd
  | readStateNextRecord
deriving DecidableEq

/-- The Go ordinal of a state (the `iota` numbering), used by the source's
`r.state < readStateStartLine` comparison. -/
def readState.toNat : readState → Nat
  | .readStateHeaderMagic => 0
  | .readStateHeaderValues => 1
  | .readStateStartLine => 2
  | .readStatePutEol => 3
  | .readStateCopy => 4
  | .readStateMatchFrom => 5
  | .readStateOutputFrom => 6
  | .readStateHeaderMagicEOF => 7
  | .readStateEnd => 8
  | .readStateNextRecord => 9

/-- Decoder instance state (source: `type decoder struct`).  `src` is the
remaining bytes of the underlying reader; `input` is the retained scratch
chunk, `iN` how many of its bytes are valid, `iPos` the cursor; `isize` is
the scratch buffer's size, fixed at the first `Read` call (`r.input`
allocation); `matchCount`/`escapeCount`/`hPos` are the resumable match
counters; `hdr` is the header string builder. -/
structure decoder where
  src : List Nat
  state : readState := .readStateHeaderMagic
  iN : Nat := 0
  iPos : Nat := 0
  input : List Nat := []
  err : Option rerror := none
  matchCount : Nat := 0
  escapeCount : Nat := 0
  hPos : Nat := 0
  hdr : List Nat := []
  isize : Option Nat := none
deriving DecidableEq

/-- `NewReader`: a fresh decoder bound to a source. -/
def NewReader (src : List Nat) : decoder := { src := src }

/-- One fuel unit per iteration of the `readStateOutputFrom` flush loop;
each iteration decreases `escapeCount + matchCount` by one, so fuel equal
to their sum is always sufficient. -/
def outputFromF : Nat → Nat → List Nat → Nat → Nat → Nat → Nat →
    List Nat × Nat × Nat × Nat × Nat
  | 0, _, placed, n, ec, m, hp => (placed, n, ec, m, hp)
  | fuel + 1, plen, placed, n, ec, m, hp =>
    if placed.length < plen then
      match ec, m with
      | ec' + 1, m => outputFromF fuel plen (placed ++ [escape]) (n + 1) ec' m hp
      | 0, m' + 1 =>
        outputFromF fuel plen (placed ++ [header.getD hp 0]) (n + 1) 0 m' (hp + 1)
      | 0, 0 => (placed, n, 0, 0, hp)
    else (placed, n, ec, m, hp)

/-- The inner flush loop of `readStateOutputFrom`: place pending `'>'`
bytes, then pending marker bytes `header[hPos]`, until both are exhausted
or the destination is full.  Returns
`(placed, n, escapeCount, matchCount, hPos)`. -/
def outputFrom (plen : Nat) (placed : List Nat) (n ec m hp : Nat) :
    List Nat × Nat × Nat × Nat × Nat :=
  outputFromF (ec + m) plen placed n ec m hp

/-- The body of `(*decoder).Read`'s scanning loop
(`for r.iPos < r.iN && i < len(p)`), one fuel unit per iteration.
Returns `(placed, count, err, decoder)` where `err` is the early-return
error (`io.EOF` at a detected record boundary with `count = i`, or
`InvalidFormat` at a magic mismatch with `count = n`), and a normal exit
returns `err = none` with `count = n`. -/
def decLoop : Nat → Nat → List Nat → Nat → decoder →
    List Nat × Nat × Option rerror × decoder
  | 0, _, placed, n, d => (placed, n, none, d)
  | fuel + 1, plen, placed, n, d =>
    if d.iPos < d.iN ∧ placed.length < plen then
      match d.state with
      | .readStateNextRecord =>
        -- a boundary was detected in the previous read: recycle
        decLoop fuel plen placed n
          { d with hdr := [], state := .readStateHeaderValues }
      | .readStateHeaderMagic =>
        -- match the "From " magic string
        if d.input.getD d.iPos 0 = header.getD d.matchCount 0 then
          let d1 := { d with iPos := d.iPos + 1, matchCount := d.matchCount + 1 }
          if d1.matchCount = header.length then
            decLoop fuel plen placed n
              { d1 with state := .readStateHeaderValues, matchCount := 0 }
          else decLoop fuel plen placed n d1
        else (placed, n, some .invalidFormat, d)
      | .readStateHeaderMagicEOF =>
        -- as readStateHeaderMagic, but a full match is a record boundary:
        -- return io.EOF with the state left at readStateNextRecord
        if d.input.getD d.iPos 0 = header.getD d.matchCount 0 then
          let d1 := { d with iPos := d.iPos + 1, matchCount := d.matchCount + 1 }
          if d1.matchCount = header.length then
            (placed, placed.length, some .ioEOF,
             { d1 with state := .readStateNextRecord, matchCount := 0 })
          else decLoop fuel plen placed n d1
        else decLoop fuel plen placed n { d with state := .readStatePutEol }
      | .readStatePutEol =>
        -- an eol was previously matched, it's not eof, so write it out
        -- (i++ without n++)
        if plen - placed.length > 0 then
          decLoop fuel plen (placed ++ [newLine]) n
            { d with state := .readStateOutputFrom }
        else decLoop fuel plen placed n d
      | .readStateHeaderValues =>
        -- scan until eol, accumulating header bytes
        let window := (d.input.take d.iN).drop d.iPos
        match window.findIdx? (fun c => c = newLine) with
        | some j =>
          decLoop fuel plen placed n
            { d with hdr := d.hdr ++ window.take j, matchCount := 0,
                     escapeCount := 0, state := .readStateStartLine,
                     iPos := d.iPos + j + 1 }
        | none =>
          decLoop fuel plen placed n
            { d with hdr := d.hdr ++ window, iPos := d.iN }
      | .readStateStartLine =>
        let b := d.input.getD d.iPos 0
        if b = escape then
          decLoop fuel plen placed n
            { d with escapeCount := d.escapeCount + 1, iPos := d.iPos + 1 }
        else if d.escapeCount > 0 ∧ b = header.getD 0 0 then
          decLoop fuel plen placed n
            { d with matchCount := d.matchCount + 1, iPos := d.iPos + 1,
                     state := .readStateMatchFrom }
        else if d.escapeCount = 0 ∧ b = newLine then
          decLoop fuel plen placed n
            { d with iPos := d.iPos + 1, state := .readStateEnd }
        else if d.escapeCount > 0 then
          decLoop fuel plen placed n { d with state := .readStateOutputFrom }
        else
          decLoop fuel plen placed n { d with state := .readStateCopy }
      | .readStateMatchFrom =>
        -- match ">"+"From " that's been escaped
        if d.matchCount = header.length then
          -- full match: strip a single ">" (and advance iPos)
          decLoop fuel plen placed n
            { d with escapeCount := d.escapeCount - 1, iPos := d.iPos + 1,
                     state := .readStateOutputFrom }
        else if d.input.getD d.iPos 0 = header.getD d.matchCount 0 then
          decLoop fuel plen placed n
            { d with matchCount := d.matchCount + 1, iPos := d.iPos + 1 }
        else if d.escapeCount = 0 ∧ d.matchCount = 0 then
          decLoop fuel plen placed n { d with state := .readStateCopy }
        else
          decLoop fuel plen placed n { d with state := .readStateOutputFrom }
      | .readStateOutputFrom =>
        -- output pending ">"-run then pending marker bytes, then always
        -- move to the copy state
        let r := outputFrom plen placed n d.escapeCount d.matchCount d.hPos
        let hp1 := if r.2.2.2.1 = 0 then 0 else r.2.2.2.2
        decLoop fuel plen r.1 r.2.1
          { d with escapeCount := r.2.2.1, matchCount := r.2.2.2.1,
                   hPos := hp1, state := .readStateCopy }
      | .readStateCopy =>
        -- bulk copy until eol or until input/destination runs out
        let remaining := plen - placed.length
        let length0 := d.iN - d.iPos
        let length1 := if length0 > remaining then remaining else length0
        let window := ((d.input.take d.iN).drop d.iPos).take length1
        match window.findIdx? (fun c => c = newLine) with
        | some j =>
          let chunk := window.take (j + 1)
          decLoop fuel plen (placed ++ chunk) (n + chunk.length)
            { d with matchCount := 0, escapeCount := 0,
                     state := .readStateStartLine, iPos := d.iPos + (j + 1) }
        | none =>
          decLoop fuel plen (placed ++ window) (n + window.length)
            { d with iPos := d.iPos + length1 }
      | .readStateEnd =>
        -- more input after a boundary blank line: try matching a new magic
        if d.iPos < d.iN then
          decLoop fuel plen placed n { d with state := .readStateHeaderMagicEOF }
        else decLoop fuel plen placed n d
    else (placed, n, none, d)

/-- `(*decoder).Read` with a destination buffer of length `plen`: returns
the bytes the caller receives, the error, and the updated decoder.
Four fuel units per available byte (input plus destination) strictly bound
the scan loop's iteration count. -/
def decRead (d0 : decoder) (plen : Nat) : List Nat × Option rerror × decoder :=
  let isz := d0.isize.getD plen
  let d := { d0 with isize := some isz }
  if d.iPos = d.iN then
    -- get some input to process
    if d.src = [] then
      -- bytes.Reader returns (0, io.EOF): classify by scanner state
      let e := if d.state.toNat < readState.readStateStartLine.toNat then
                 rerror.invalidHeader
               else if d.state ≠ .readStateEnd then rerror.invalidFormat
               else rerror.ioEOF
      ([], some e, { d with iN := 0, err := some e })
    else
      let chunk := d.src.take isz
      let d1 := { d with input := chunk, iN := chunk.length,
                         err := none, src := d.src.drop isz }
      if chunk.length = 0 then ([], none, d1)
      else
        let d2 := { d1 with iPos := 0 }
        let r := decLoop (4 * (d2.iN + plen) + 16) plen [] 0 d2
        (r.1.take r.2.1, r.2.2.1, r.2.2.2)
  else
    if d.iN = 0 ∧ d.err = some rerror.ioEOF then
      -- recycled reader with no more input (tested by TestReadMSingle)
      ([], some .ioEOF, d)
    else
      let r := decLoop (4 * (d.iN + plen) + 16) plen [] 0 d
      (r.1.take r.2.1, r.2.2.1, r.2.2.2)

/-- `(*decoder).Header`: split the accumulated header text on the first
space into sender and date text; parse the date text in the fixed ANSIC
layout only when more than one byte follows the space.  `none` models the
`InvalidHeader` error result; `some (sender, dateOpt)` models a nil error,
with `dateOpt = none` for the zero time. -/
def decHeader (d : decoder) : Option (List Nat × Option Nat) :=
  if d.hdr.length > 0 then
    match d.hdr.findIdx? (fun c => c = 32) with
    | some i =>
      let fromv := d.hdr.take i
      if d.hdr.length - 1 > i + 1 then
        match ansicParse (d.hdr.drop (i + 1)) with
        | some t => some (fromv, some t)
        | none => none
      else some (fromv, none)
    | none => none
  else none

/-- Drive a decoder with repeated `Read` calls of buffer size `plen` (as
`io.CopyBuffer` does), concatenating the received bytes, stopping at the
first non-nil error or after `k` calls. -/
def decDriveN : Nat → decoder → Nat → List Nat × Option rerror × decoder
  | 0, d, _ => ([], none, d)
  | k + 1, d, plen =>
    let r := decRead d plen
    match r.2.1 with
    | some e => (r.1, some e, r.2.2)
    | none =>
      let r2 := decDriveN k r.2.2 plen
      (r.1 ++ r2.1, r2.2.1, r2.2.2)

/-! ### Concrete inputs used by the claims -/

/-- The repository's `readTest2`: a record whose body is not terminated by
a newline. -/
def readTest2 : List Nat :=
  bytesOf "From test@example.com Wed Jan 27 02:32:22 2021\n>>>>From this should be unescaped"

/-- The repository's `readTest3`, the spec's literal scenario. -/
def readTest3 : List Nat :=
  bytesOf "From test@example.com Wed Jan 27 02:32:22 2021\n>>>>From this should be unescaped\n12345678\n\n"

/-- A body consisting of the single already-stuffed line `">From x\n"`
(after stripping its `'>'` run it begins with the marker). -/
def c1Body : List Nat := bytesOf ">From x\n"

/-- Encoding `c1Body` as one record. -/
def c1Written : encoder × List Nat :=
  encWrite (encOpen NewWriter (bytesOf "A") 1611714742) c1Body

/-- The full encoded record for `c1Body` (write output plus close output). -/
def c1Record : List Nat := c1Written.2 ++ (encClose c1Written.1).2

/-- Two concatenated well-formed records; the second record's stored body
`">>From x\n"` is the encoding of the body line `">From x\n"`. -/
def c4Input : List Nat :=
  bytesOf "From A Wed Jan 27 02:32:22 2021\nb1\n\nFrom B Wed Jan 27 02:32:22 2021\n>>From x\n\n"

/-- First drive of a single decoder over `c4Input`: up to the first
end-of-current-message signal. -/
def c4Phase1 : List Nat × Option rerror × decoder :=
  decDriveN 10 (NewReader c4Input) 4096

/-- Continued drive of the same decoder instance over the second record. -/
def c4Phase2 : List Nat × Option rerror × decoder :=
  decDriveN 10 c4Phase1.2.2 4096

/-- An input whose very first byte differs from the marker's. -/
def c6Input : List Nat := bytesOf "Xrom A B\n\n"

/-- A record whose header line `"a b"` has only one byte after its first
space. -/
def c7Input : List Nat := bytesOf "From a b\nz\n\n"

/-- The header line the encoder must emit:
`"From " + sender + " " + ANSIC date + "\n"`. -/
def ansicHeaderLine (sender : List Nat) (t : Nat) : List Nat :=
  header ++ sender ++ [32] ++ ansicFormat t ++ [newLine]

/-- A body starting with a one-byte stuffing run. -/
def c10Input : List Nat := bytesOf ">a\n"

/-! ### Claim theorems -/

/-- Helper: while matching the initial magic, a mismatch at relative
offset `k` of the current input window makes the scan loop return
`InvalidFormat`. -/
theorem decLoop_magic_mismatch :
    ∀ (k fuel plen n : Nat) (placed : List Nat) (d : decoder),
    d.state = .readStateHeaderMagic →
    (∀ l, l < k → d.input.getD (d.iPos + l) 0 = header.getD (d.matchCount + l) 0) →
    d.input.getD (d.iPos + k) 0 ≠ header.getD (d.matchCount + k) 0 →
    d.matchCount + k < header.length →
    d.iPos + k < d.iN →
    placed.length < plen →
    k < fuel →
    (decLoop fuel plen placed n d).2.2.1 = some rerror.invalidFormat := by
  intro k
  induction k with
  | zero =>
    intro fuel plen n placed d hstate hpre hmis hm hpos hplen hfuel
    match fuel, hfuel with
    | f + 1, _ =>
      obtain ⟨src, st, iN0, iPos0, input0, err0, mc, ec, hp, hdr0, isz⟩ := d
      simp only at hstate hpre hmis hm hpos ⊢
      subst hstate
      simp only [decLoop]
      rw [if_pos ⟨by omega, hplen⟩]
      rw [if_neg (by simpa using hmis)]
  | succ k ih =>
    intro fuel plen n placed d hstate hpre hmis hm hpos hplen hfuel
    match fuel, hfuel with
    | f + 1, _ =>
      obtain ⟨src, st, iN0, iPos0, input0, err0, mc, ec, hp, hdr0, isz⟩ := d
      simp only at hstate hpre hmis hm hpos ⊢
      subst hstate
      simp only [decLoop]
      rw [if_pos ⟨by omega, hplen⟩]
      have h0 : input0.getD iPos0 0 = header.getD mc 0 := by
        simpa using hpre 0 (by omega)
      rw [if_pos h0]
      rw [if_neg (show ¬(mc + 1 = header.length) by omega)]
      refine ih f plen n placed _ rfl ?_ ?_ ?_ ?_ hplen (by omega)
      · intro l hl
        have := hpre (l + 1) (by omega)
        simpa [show iPos0 + 1 + l = iPos0 + (l + 1) by omega,
               show mc + 1 + l = mc + (l + 1) by omega] using this
      · have := hmis
        simpa [show iPos0 + 1 + k = iPos0 + (k + 1) by omega,
               show mc + 1 + k = mc + (k + 1) by omega] using this
      · show mc + 1 + k < header.length
        omega
      · show iPos0 + 1 + k < iN0
        omega

/-- Claim C1: for a body line matching the stuffed-marker shape, encoding
adds exactly one `'>'` (first conjunct: the stored record), but decoding
the encoded record does not reproduce the original line: the decoder
strips one `'>'` and additionally drops the byte that follows the matched
marker, so encode-then-decode is not the identity. -/
theorem c1_escape_roundtrip_drops_byte :
    c1Record = bytesOf "From A Wed Jan 27 02:32:22 2021\n>>From x\n\n"
  ∧ (decDriveN 4 (NewReader c1Record) 4096).1 = bytesOf ">From \n"
  ∧ (decDriveN 4 (NewReader c1Record) 4096).2.1 = some rerror.ioEOF
  ∧ bytesOf ">From \n" ≠ c1Body := by decide

/-- Claim C2: decoding the same well-formed archive with destination
buffers of size 1 and of size 4096 yields different output bytes (34
versus 41), both runs ending in a clean end-of-stream: when the
destination fills mid-flush the pending `'>'`-run and marker bytes are
abandoned (the scanner moves to the copy state unconditionally), so
chunk-size invariance fails. -/
theorem c2_chunk_size_dependence :
    (decDriveN 300 (NewReader readTest3) 1).1 ≠ (decDriveN 6 (NewReader readTest3) 4096).1
  ∧ (decDriveN 300 (NewReader readTest3) 1).2.1 = some rerror.ioEOF
  ∧ (decDriveN 6 (NewReader readTest3) 4096).2.1 = some rerror.ioEOF
  ∧ (decDriveN 300 (NewReader readTest3) 1).1.length = 34
  ∧ (decDriveN 6 (NewReader readTest3) 4096).1.length = 41 := by decide

/-- Claim C3: on the literal scenario input the decoder reports sender
`test@example.com`, timestamp 1611714742, and a clean end-of-stream, but
the body it produces is the 41-byte `">>>From his should be unescaped\n12345678\n"`
(the `'t'` after the unescaped marker is dropped), not the claimed
42-byte body. -/
theorem c3_literal_scenario_drops_byte :
    (decDriveN 6 (NewReader readTest3) 4096).1
      = bytesOf ">>>From his should be unescaped\n12345678\n"
  ∧ (decDriveN 6 (NewReader readTest3) 4096).1
      ≠ bytesOf ">>>From this should be unescaped\n12345678\n"
  ∧ (decDriveN 6 (NewReader readTest3) 4096).2.1 = some rerror.ioEOF
  ∧ decHeader (decDriveN 6 (NewReader readTest3) 4096).2.2
      = some (bytesOf "test@example.com", some 1611714742) := by decide

/-- Claim C4: over two concatenated well-formed records a single decoder
instance signals end-of-current-message exactly once at the boundary
(phase one delivers exactly the first body and ends with the signal),
does not re-emit the second marker, and afterwards reports the second
record's sender and date; but the continued reads deliver `">From \n"`
instead of the second record's body `">From x\n"` (the byte after the
unescaped marker is dropped). -/
theorem c4_boundary_detected_but_second_body_corrupted :
    c4Phase1.1 = bytesOf "b1\n"
  ∧ c4Phase1.2.1 = some rerror.ioEOF
  ∧ c4Phase2.1 = bytesOf ">From \n"
  ∧ c4Phase2.2.1 = some rerror.ioEOF
  ∧ decHeader c4Phase2.2.2 = some (bytesOf "B", some 1611714742)
  ∧ c4Phase2.1 ≠ bytesOf ">From x\n" := by decide

/-- Claim C5: when the source signals end-of-data (it has no bytes left
and the scratch buffer is exhausted), `Read` returns `InvalidHeader`
exactly in the states before line-start scanning, `InvalidFormat` in
every other non-terminal state, and a clean end-of-stream exactly in the
boundary state `readStateEnd` — and concretely: an empty source and a
source holding only the 5 bytes `"From "` report `InvalidHeader`, a body
not terminated by a blank line reports `InvalidFormat`, and the literal
terminated record ends with a clean end-of-stream. -/
theorem c5_eof_classification :
    (∀ (d : decoder) (plen : Nat), d.iPos = d.iN → d.src = [] →
      ((d.state.toNat < readState.readStateStartLine.toNat →
          (decRead d plen).2.1 = some rerror.invalidHeader)
       ∧ (readState.readStateStartLine.toNat ≤ d.state.toNat →
          d.state ≠ .readStateEnd →
          (decRead d plen).2.1 = some rerror.invalidFormat)
       ∧ (d.state = .readStateEnd → (decRead d plen).2.1 = some rerror.ioEOF)
       ∧ (decRead d plen).1 = []))
  ∧ (decDriveN 3 (NewReader []) 8).2.1 = some rerror.invalidHeader
  ∧ (decDriveN 3 (NewReader (bytesOf "From ")) 8).2.1 = some rerror.invalidHeader
  ∧ (decDriveN 60 (NewReader readTest2) 8).2.1 = some rerror.invalidFormat
  ∧ (decDriveN 60 (NewReader readTest3) 8).2.1 = some rerror.ioEOF := by
  refine ⟨?_, by decide, by decide, by decide, by decide⟩
  intro d plen h1 h2
  obtain ⟨src, st, iN0, iPos0, input0, err0, mc, ec, hp, hdr0, isz⟩ := d
  simp only at h1 h2
  subst h1 h2
  cases st <;> simp [decRead, readState.toNat]

/-- Witness for C5: the classification instantiated at a decoder stopped
mid-body (copy state) with an exhausted source. -/
theorem c5_eof_classification_witness :
    (decRead { src := [], state := .readStateCopy } 8).2.1
      = some rerror.invalidFormat :=
  ((c5_eof_classification.1 { src := [], state := .readStateCopy } 8
      rfl rfl).2.1) (by decide) (by decide)

/-- Claim C9: after `Open(sender, t)`, the first `Write` call pushes to
the sink, before any body byte, exactly the header line
`"From " ++ sender ++ " " ++ t` formatted in the fixed ANSIC layout
`++ "\n"`, byte for byte. -/
theorem c9_first_write_emits_header_line :
    ∀ (sender : List Nat) (t : Nat) (p : List Nat), p ≠ [] →
    ∃ rest, (encWrite (encOpen NewWriter sender t) p).2
            = ansicHeaderLine sender t ++ rest := by
  intro sender t p hp
  match p with
  | [] => exact absurd rfl hp
  | b :: bs =>
    have hfuel : 4 * (b :: bs).length + 4 = (4 * (b :: bs).length + 3) + 1 := by
      omega
    refine ⟨(encLoop (4 * (b :: bs).length + 3) (b :: bs) { (encOpen NewWriter sender t) with n := 0, state := .writeStateStartLine }).2, ?_⟩
    rw [encWrite, hfuel, encLoop]
    simp [encOpen, NewWriter, ansicHeaderLine, List.append_assoc]

/-- Witness for C9: the header-line prefix at a concrete sender, epoch
time and one-byte body. -/
theorem c9_first_write_emits_header_line_witness :
    ∃ rest, (encWrite (encOpen NewWriter (bytesOf "a") 0) (bytesOf "x")).2
            = ansicHeaderLine (bytesOf "a") 0 ++ rest :=
  c9_first_write_emits_header_line (bytesOf "a") 0 (bytesOf "x") (by decide)

/-- Claim C6 counterexample: an input whose first byte already differs
from the marker makes `Read` fail with `InvalidFormat`, not the
`InvalidHeader` the claim states. -/
theorem c6_magic_mismatch_counterexample :
    (decDriveN 3 (NewReader c6Input) 8).2.1 = some rerror.invalidFormat
  ∧ some rerror.invalidFormat ≠ some rerror.invalidHeader := by decide

/-- Claim C6 (amended): an input whose first bytes mismatch the 5-byte
marker at any offset `j` (given a destination buffer that covers the
mismatch) makes `Read` fail with the fatal error `InvalidFormat`;
`InvalidHeader` is reserved for end-of-source before line-start
scanning. -/
theorem c6_amended_magic_mismatch_invalid_format :
    ∀ (j b plen : Nat) (rest : List Nat),
    j < header.length → b ≠ header.getD j 0 → j < plen →
    (decRead (NewReader (header.take j ++ b :: rest)) plen).2.1
      = some rerror.invalidFormat := by
  intro j b plen rest hj hb hplen
  have htk : (header.take j).length = j := by
    simp [List.length_take]
    omega
  have hsrc : (header.take j ++ b :: rest) ≠ [] := by simp
  have hsl : (header.take j ++ b :: rest).length = j + 1 + rest.length := by
    simp [htk]
    omega
  have hcl : ((header.take j ++ b :: rest).take plen).length
      = min plen (j + 1 + rest.length) := by
    simp [List.length_take, hsl]
  have hclpos : ¬(((header.take j ++ b :: rest).take plen).length = 0) := by
    rw [hcl]
    omega
  simp only [decRead, NewReader, Option.getD_none, if_neg hsrc, if_neg hclpos,
    if_true]
  have hget : ∀ l, l ≤ j →
      ((header.take j ++ b :: rest).take plen)[l]?
        = (header.take j ++ b :: rest)[l]? := by
    intro l hl
    exact List.getElem?_take_of_lt (by omega)
  have hgetj : ((header.take j ++ b :: rest).take plen).getD j 0 = b := by
    rw [List.getD_eq_getElem?_getD, hget j (le_refl j),
        List.getElem?_append_right (by omega)]
    simp [htk]
  refine decLoop_magic_mismatch j _ plen 0 [] _ rfl ?_ ?_ ?_ ?_ ?_ ?_
  · intro l hl
    show ((header.take j ++ b :: rest).take plen).getD (0 + l) 0
        = header.getD (0 + l) 0
    rw [Nat.zero_add, List.getD_eq_getElem?_getD, hget l (le_of_lt hl),
        List.getElem?_append_left (by omega),
        List.getElem?_take_of_lt (by omega), List.getD_eq_getElem?_getD]
  · show ((header.take j ++ b :: rest).take plen).getD (0 + j) 0
        ≠ header.getD (0 + j) 0
    rw [Nat.zero_add, hgetj]
    exact hb
  · show 0 + j < header.length
    omega
  · show 0 + j < ((header.take j ++ b :: rest).take plen).length
    rw [hcl]
    omega
  · show ([] : List Nat).length < plen
    simp
    omega
  · omega

/-- Witness for the amended C6: a first byte `'X'` (88) in place of
`'F'` yields `InvalidFormat`. -/
theorem c6_amended_magic_mismatch_invalid_format_witness :
    (decRead (NewReader (header.take 0 ++ 88 :: bytesOf "rom A\n\n")) 8).2.1
      = some rerror.invalidFormat :=
  c6_amended_magic_mismatch_invalid_format 0 88 8 (bytesOf "rom A\n\n")
    (by decide) (by decide) (by decide)

/-- Claim C7 counterexample: after fully scanning the header line
`"a b"` (whose date text after the first space is a single byte, hence
missing), `Header()` returns an ok result with sender `"a"` and the zero
date rather than an error. -/
theorem c7_short_date_is_ok_counterexample :
    decHeader (decDriveN 5 (NewReader c7Input) 8).2.2 = some (bytesOf "a", none)
  ∧ decHeader (decDriveN 5 (NewReader c7Input) 8).2.2 ≠ none := by decide

/-- Claim C7 (amended): after a header line has been scanned, `Header()`
is not-ok exactly when the accumulated text is empty, contains no space,
or has at least two bytes after its first space that fail the fixed
ANSIC parse; when at most one byte follows the first space the date text
is never parsed and `Header()` returns ok with the zero date. -/
theorem c7_amended_header_split :
    ∀ (d : decoder),
      decHeader d = none ↔
        (d.hdr = [] ∨ d.hdr.findIdx? (fun c => c = 32) = none ∨
         ∃ i, d.hdr.findIdx? (fun c => c = 32) = some i ∧
              d.hdr.length - 1 > i + 1 ∧ ansicParse (d.hdr.drop (i + 1)) = none) := by
  intro d
  unfold decHeader
  rcases hh : d.hdr with _ | ⟨c, cs⟩
  · simp [hh]
  · simp only [hh, List.length_cons]
    rcases hf : (c :: cs).findIdx? (fun x => decide (x = 32)) with _ | i
    · simp [hf]
    · simp only [hf]
      by_cases hlen : i + 1 < cs.length
      · rcases hp : ansicParse (List.drop i cs) with _ | t
        · simp [hlen, hp]
        · simp [hlen, hp]
      · simp [hlen]

/-- Claim C8 counterexample: closing twice without an intervening open
writes the trailing line terminator to the sink on both calls — the
second call is neither a no-op nor an error. -/
theorem c8_double_close_emits_twice :
    (encClose NewWriter).2 = [newLine]
  ∧ (encClose (encClose NewWriter).1).2 = [newLine]
  ∧ ([newLine] : List Nat) ≠ [] := by decide

/-- Claim C8 (amended): a second `Close` without an intervening `Open`
always silently appends exactly one more trailing line terminator
(the first call's deferred reset clears the pending-match counters, so
the second call emits only the terminator; no misuse error exists). -/
theorem c8_amended_second_close_appends_terminator :
    ∀ (w : encoder), (encClose (encClose w).1).2 = [newLine] := by
  intro w
  simp [encClose]

/-- Claim C10: a successful `Write` of the 3-byte slice `">a\n"` returns
the accepted-byte count 4: the first `'>'` of a stuffing run is counted
once when consumed and again when the run is flushed, so the io.Writer
contract `n = len(p)` is violated. -/
theorem c10_write_count_overreports :
    ((encWrite (encOpen NewWriter (bytesOf "A") 0) c10Input).1).n = 4
  ∧ c10Input.length = 3 := by decide

end Mbox
